import Mathlib

/-!
# BankAccount (src/main.cpp)

A shallow embedding of the `BankAccount` class and of the three exception
classes it throws.

Modelling decisions:

* The class is embedded twice.  For the claims about control flow (which
  guard fires, what a throwing call leaves behind, closing, the driver)
  `double` amounts and balances are embedded as exact rationals `ℚ`: the
  throwing paths do no arithmetic and the sums of the driver are exact.
  For the claims about the value a returning call leaves in `balance`, the
  class is embedded over a model of IEEE 754 binary64 (namespace
  `Binary64`), with rounding, the infinities and NaN.
* A member function that may throw is a function from the object state and
  its arguments to a pair: the outcome (`Except Exception Unit`) and the
  object state left behind.  The state is returned on the throwing paths as
  well, because the C++ object outlives the exception.
-/

namespace BankAccountModel

/-- The three exception classes of `main.cpp` (lines 7-20). -/
inductive Exception where
  | NegativeDepositException
  | OverdrawException
  | InvalidAccountOperationException
  deriving DecidableEq, Repr

/-- The message each exception class passes to `std::runtime_error`. -/
def Exception.what : Exception → String
  | .NegativeDepositException => "Cannot deposit a negative amount!"
  | .OverdrawException => "Insufficient funds for withdrawal!"
  | .InvalidAccountOperationException => "Transaction not allowed on closed account!"

/-- The private fields of `class BankAccount` (lines 24-26). -/
structure BankAccount where
  accountNumber : String
  balance : ℚ
  isActive : Bool
  deriving DecidableEq

/-- The constructor `BankAccount(accNum, initialBalance)` (lines 30-31). -/
def BankAccount.init (accNum : String) (initialBalance : ℚ) : BankAccount :=
  { accountNumber := accNum, balance := initialBalance, isActive := true }

/-- The member `void deposit(double amount)` (lines 34-38). -/
def BankAccount.deposit (self : BankAccount) (amount : ℚ) :
    Except Exception Unit × BankAccount :=
  if !self.isActive then (.error .InvalidAccountOperationException, self)
  else if amount < 0 then (.error .NegativeDepositException, self)
  else (.ok (), { self with balance := self.balance + amount })

/-- The member `void withdraw(double amount)` (lines 41-45). -/
def BankAccount.withdraw (self : BankAccount) (amount : ℚ) :
    Except Exception Unit × BankAccount :=
  if !self.isActive then (.error .InvalidAccountOperationException, self)
  else if amount > self.balance then (.error .OverdrawException, self)
  else (.ok (), { self with balance := self.balance - amount })

/-- The member `double getBalance() const` (lines 48-50). -/
def BankAccount.getBalance (self : BankAccount) : ℚ :=
  self.balance

/-- The member `void closeAccount()` (lines 53-55). -/
def BankAccount.closeAccount (self : BankAccount) : BankAccount :=
  { self with isActive := false }

/-- One call on the public interface of `BankAccount`. -/
inductive Op where
  | deposit (amount : ℚ)
  | withdraw (amount : ℚ)
  | getBalance
  | closeAccount
  deriving DecidableEq

/-- The object state after one call, whether the call returned or threw
(the caller catches the exception, as every call site of the driver does). -/
def Op.apply (s : BankAccount) : Op → BankAccount
  | .deposit amount => (s.deposit amount).2
  | .withdraw amount => (s.withdraw amount).2
  | .getBalance => s
  | .closeAccount => s.closeAccount

/-- The object state after a finite sequence of calls, applied left to right. -/
def runOps (s : BankAccount) (ops : List Op) : BankAccount :=
  ops.foldl Op.apply s

/-! ## The driver (`testEdgeCases` and `main`, lines 58-110)

The driver is embedded as statements over the local account object and the
text written so far.  A statement returns normally or leaves with an
exception; in both cases it hands on the state it reached. -/

/-- The two streams the driver writes to. -/
inductive OStream where
  | cout
  | cerr
  deriving DecidableEq

/-- One operand of a `<<` chain: a string, a `double`, or `std::endl`. -/
inductive Item where
  | str (text : String)
  | num (value : ℚ)
  | endl
  deriving DecidableEq

/-- Everything written so far, oldest first, with the stream it went to. -/
abbrev Transcript := List (OStream × Item)

/-- The local account object of a driver function and the transcript. -/
abbrev DriverState := BankAccount × Transcript

/-- A statement of the driver. -/
abbrev Stmt := DriverState → Except Exception Unit × DriverState

/-- The statement `o << i₁ << i₂ << ...;`. -/
def put (o : OStream) (items : List Item) : Stmt :=
  fun st => (.ok (), (st.1, st.2 ++ items.map (fun i => (o, i))))

/-- The statement `account->deposit(amount);`. -/
def callDeposit (amount : ℚ) : Stmt :=
  fun st => ((st.1.deposit amount).1, ((st.1.deposit amount).2, st.2))

/-- The statement `account->withdraw(amount);`. -/
def callWithdraw (amount : ℚ) : Stmt :=
  fun st => ((st.1.withdraw amount).1, ((st.1.withdraw amount).2, st.2))

/-- The statement `account->closeAccount();`. -/
def callCloseAccount : Stmt :=
  fun st => (.ok (), (st.1.closeAccount, st.2))

/-- The statement
`std::cout << "Current Balance: $" << account->getBalance() << std::endl;`. -/
def putBalance : Stmt :=
  fun st => put .cout [.str "Current Balance: $", .num st.1.getBalance, .endl] st

/-- Statements in sequence: an exception skips the statements that follow. -/
def block : List Stmt → Stmt
  | [] => fun st => (.ok (), st)
  | p :: rest => fun st =>
    match p st with
    | (.ok _, st1) => block rest st1
    | (.error e, st1) => (.error e, st1)

/-- The statement `try { body } catch (const std::exception& e) { handler }`;
all three exception classes derive from `std::exception`. -/
def tryCatch (body : Stmt) (handler : Exception → Stmt) : Stmt :=
  fun st =>
    match body st with
    | (.ok _, st1) => (.ok (), st1)
    | (.error e, st1) => handler e st1

/-- The handler of the three `catch` clauses of `testEdgeCases`. -/
def reportException (e : Exception) : Stmt :=
  put .cerr [.str "Exception: ", .str e.what, .endl]

/-- The three `try` statements of `testEdgeCases` (lines 61-83), run on its
local account. -/
def testEdgeCasesBody : Stmt :=
  block
    [ tryCatch
        (block [put .cout [.str "\nTesting edge cases...\n"],
                put .cout [.str "Depositing -100...\n"],
                callDeposit (-100)])
        reportException,
      tryCatch
        (block [put .cout [.str "Attempting to withdraw $600 (more than balance)...\n"],
                callWithdraw 600])
        reportException,
      tryCatch
        (block [put .cout [.str "Closing account...\n"],
                callCloseAccount,
                put .cout [.str "Attempting to deposit $50 after closure...\n"],
                callDeposit 50])
        reportException ]

/-- The function `void testEdgeCases()` (lines 58-84): it creates its own
account `("789101", 500.0)` and shares only the streams with its caller. -/
def testEdgeCases (out : Transcript) : Except Exception Unit × Transcript :=
  ((testEdgeCasesBody (BankAccount.init "789101" 500, out)).1,
   (testEdgeCasesBody (BankAccount.init "789101" 500, out)).2.2)

/-- The statement `testEdgeCases();` inside `main`. -/
def callTestEdgeCases : Stmt :=
  fun st => ((testEdgeCases st.2).1, (st.1, (testEdgeCases st.2).2))

/-- The body of the `try` statement of `main` (lines 88-103), run on the
account `("123456", 1000.0)` it creates. -/
def mainTry : Stmt :=
  block
    [ put .cout [.str "Bank Account Created: #", .str "123456", .endl],
      put .cout [.str "Depositing $1000...", .endl],
      callDeposit 1000,
      putBalance,
      put .cout [.str "Withdrawing $500...", .endl],
      callWithdraw 500,
      putBalance,
      callTestEdgeCases ]

/-- The handler of the `catch` clause of `main` (lines 105-107). -/
def reportError (e : Exception) : Stmt :=
  put .cerr [.str "Error: ", .str e.what, .endl]

/-- The function `int main()` (lines 86-110): the exit status, when `main`
returns, and the transcript. -/
def main : Except Exception Int × Transcript :=
  match tryCatch mainTry reportError (BankAccount.init "123456" 1000, []) with
  | (.ok _, st) => (.ok 0, st.2)
  | (.error e, st) => (.error e, st.2)

/-- The `double` values written to a transcript, in order. -/
def Transcript.nums : Transcript → List ℚ
  | [] => []
  | (_, .num x) :: rest => x :: Transcript.nums rest
  | _ :: rest => Transcript.nums rest

/-- The operands written to `std::cerr`, in order. -/
def Transcript.errItems : Transcript → List Item
  | [] => []
  | (.cerr, i) :: rest => i :: Transcript.errItems rest
  | _ :: rest => Transcript.errItems rest

/-! ## The class over IEEE 754 binary64

The claims about the value a call leaves in `balance` depend on what
`balance += amount` and `balance -= amount` compute on `double`.  For them the
class is embedded a second time, over a model of binary64 with rounding to
nearest (ties to even), overflow to infinity, the two infinities and NaN.
The two zeros are identified: the class only adds, subtracts and compares,
and no comparison tells `-0.0` from `0.0`. -/

namespace Binary64

/-- A value of the C++ type `double`: NaN, an infinity, or a finite value.
A finite value of the program is one that `Double.round` leaves unchanged. -/
inductive Double where
  | nan
  | inf (negative : Bool)
  | fin (value : ℚ)
  deriving DecidableEq

/-- Rounding to the nearest integer, a tie going to the even one. -/
def roundHalfEven (q : ℚ) : ℤ :=
  if q - ⌊q⌋ < 1 / 2 then ⌊q⌋
  else if 1 / 2 < q - ⌊q⌋ then ⌊q⌋ + 1
  else if ⌊q⌋ % 2 = 0 then ⌊q⌋ else ⌊q⌋ + 1

/-- The exponent `e` such that the binary64 values around `x` are the
multiples of `2 ^ e`: 53 significant bits, and `2 ^ (-1074)` for the
subnormal range. -/
def ulpExponent (x : ℚ) : ℤ :=
  max (Int.log 2 |x| - 52) (-1074)

/-- The binary64 value an exact result `x` is rounded to: the nearest
multiple of `2 ^ ulpExponent x`, ties to even, and an infinity when that
reaches `2 ^ 1024`. -/
def Double.round (x : ℚ) : Double :=
  if 2 ^ 1024 ≤ |(roundHalfEven (x / 2 ^ ulpExponent x) : ℚ) * 2 ^ ulpExponent x| then
    .inf (decide (x < 0))
  else .fin (roundHalfEven (x / 2 ^ ulpExponent x) * 2 ^ ulpExponent x)

/-- The rational `x` is a finite binary64 value: rounding leaves it as it is. -/
def Representable (x : ℚ) : Prop :=
  Double.round x = .fin x

instance (x : ℚ) : Decidable (Representable x) :=
  inferInstanceAs (Decidable (Double.round x = .fin x))

/-- The value is neither NaN nor an infinity (`std::isfinite`). -/
def Double.isFinite : Double → Bool
  | .fin _ => true
  | _ => false

/-- The C++ comparison `a < b` on `double`: false when either side is NaN. -/
def Double.lt : Double → Double → Bool
  | .nan, _ => false
  | _, .nan => false
  | .inf n1, .inf n2 => n1 && !n2
  | .inf n, .fin _ => n
  | .fin _, .inf n => !n
  | .fin x, .fin y => decide (x < y)

/-- The C++ comparison `a <= b` on `double`: false when either side is NaN. -/
def Double.le : Double → Double → Bool
  | .nan, _ => false
  | _, .nan => false
  | .inf n1, .inf n2 => n1 || !n2
  | .inf n, .fin _ => n
  | .fin _, .inf n => !n
  | .fin x, .fin y => decide (x ≤ y)

/-- The C++ sum `a + b` on `double`. -/
def Double.add : Double → Double → Double
  | .nan, _ => .nan
  | _, .nan => .nan
  | .inf n1, .inf n2 => if n1 = n2 then .inf n1 else .nan
  | .inf n, .fin _ => .inf n
  | .fin _, .inf n => .inf n
  | .fin x, .fin y => Double.round (x + y)

/-- The C++ difference `a - b` on `double`. -/
def Double.sub : Double → Double → Double
  | .nan, _ => .nan
  | _, .nan => .nan
  | .inf n1, .inf n2 => if n1 = n2 then .nan else .inf n1
  | .inf n, .fin _ => .inf n
  | .fin _, .inf n => .inf (!n)
  | .fin x, .fin y => Double.round (x - y)

instance : LT Double := ⟨fun a b => Double.lt a b = true⟩

instance : LE Double := ⟨fun a b => Double.le a b = true⟩

instance (a b : Double) : Decidable (a < b) :=
  inferInstanceAs (Decidable (Double.lt a b = true))

instance (a b : Double) : Decidable (a ≤ b) :=
  inferInstanceAs (Decidable (Double.le a b = true))

instance : Add Double := ⟨Double.add⟩

instance : Sub Double := ⟨Double.sub⟩

instance : Zero Double := ⟨.fin 0⟩

/-- The private fields of `class BankAccount` (lines 24-26), with the
balance a `double`. -/
structure BankAccount where
  accountNumber : String
  balance : Double
  isActive : Bool
  deriving DecidableEq

/-- The constructor `BankAccount(accNum, initialBalance)` (lines 30-31). -/
def BankAccount.init (accNum : String) (initialBalance : Double) : BankAccount :=
  { accountNumber := accNum, balance := initialBalance, isActive := true }

/-- The member `void deposit(double amount)` (lines 34-38). -/
def BankAccount.deposit (self : BankAccount) (amount : Double) :
    Except Exception Unit × BankAccount :=
  if !self.isActive then (.error .InvalidAccountOperationException, self)
  else if amount < 0 then (.error .NegativeDepositException, self)
  else (.ok (), { self with balance := self.balance + amount })

/-- The member `void withdraw(double amount)` (lines 41-45). -/
def BankAccount.withdraw (self : BankAccount) (amount : Double) :
    Except Exception Unit × BankAccount :=
  if !self.isActive then (.error .InvalidAccountOperationException, self)
  else if amount > self.balance then (.error .OverdrawException, self)
  else (.ok (), { self with balance := self.balance - amount })

/-- The member `double getBalance() const` (lines 48-50). -/
def BankAccount.getBalance (self : BankAccount) : Double :=
  self.balance

/-- The member `void closeAccount()` (lines 53-55). -/
def BankAccount.closeAccount (self : BankAccount) : BankAccount :=
  { self with isActive := false }

/-- One call on the public interface of `BankAccount`. -/
inductive Op where
  | deposit (amount : Double)
  | withdraw (amount : Double)
  | getBalance
  | closeAccount
  deriving DecidableEq

/-- The call passes no NaN and no infinity. -/
def Op.finiteAmount : Op → Bool
  | .deposit amount => amount.isFinite
  | .withdraw amount => amount.isFinite
  | .getBalance => true
  | .closeAccount => true

/-- The object state after one call, whether the call returned or threw. -/
def Op.apply (s : BankAccount) : Op → BankAccount
  | .deposit amount => (s.deposit amount).2
  | .withdraw amount => (s.withdraw amount).2
  | .getBalance => s
  | .closeAccount => s.closeAccount

/-- The object state after a finite sequence of calls, applied left to right. -/
def runOps (s : BankAccount) (ops : List Op) : BankAccount :=
  ops.foldl Op.apply s

end Binary64

/-! ## Shared lemmas -/

lemma deposit_inactive (s : BankAccount) (amount : ℚ) (h : s.isActive = false) :
    s.deposit amount = (.error .InvalidAccountOperationException, s) := by
  simp [BankAccount.deposit, h]

lemma withdraw_inactive (s : BankAccount) (amount : ℚ) (h : s.isActive = false) :
    s.withdraw amount = (.error .InvalidAccountOperationException, s) := by
  simp [BankAccount.withdraw, h]

lemma deposit_negative_case (s : BankAccount) (amount : ℚ)
    (hact : s.isActive = true) (hamt : amount < 0) :
    (s.deposit amount).1 = .error .NegativeDepositException := by
  simp [BankAccount.deposit, hact, hamt]

lemma apply_inactive (s : BankAccount) (op : Op) (h : s.isActive = false) :
    (Op.apply s op).isActive = false ∧ (Op.apply s op).balance = s.balance := by
  cases op with
  | deposit amount => simp [Op.apply, deposit_inactive s amount h, h]
  | withdraw amount => simp [Op.apply, withdraw_inactive s amount h, h]
  | getBalance => simp [Op.apply, h]
  | closeAccount => simp [Op.apply, BankAccount.closeAccount]

lemma runOps_inactive (ops : List Op) :
    ∀ s : BankAccount, s.isActive = false →
      (runOps s ops).isActive = false ∧ (runOps s ops).balance = s.balance := by
  induction ops with
  | nil => intro s h; exact ⟨h, rfl⟩
  | cons op rest ih =>
    intro s h
    have h1 := apply_inactive s op h
    have h2 := ih (Op.apply s op) h1.1
    simp only [runOps, List.foldl_cons] at h2 ⊢
    exact ⟨h2.1, h2.2.trans h1.2⟩

lemma apply_accountNumber (s : BankAccount) (op : Op) :
    (Op.apply s op).accountNumber = s.accountNumber := by
  cases op with
  | deposit amount =>
    simp only [Op.apply, BankAccount.deposit]
    split_ifs <;> rfl
  | withdraw amount =>
    simp only [Op.apply, BankAccount.withdraw]
    split_ifs <;> rfl
  | getBalance => rfl
  | closeAccount => rfl

lemma runOps_accountNumber (ops : List Op) :
    ∀ s : BankAccount, (runOps s ops).accountNumber = s.accountNumber := by
  induction ops with
  | nil => intro s; rfl
  | cons op rest ih =>
    intro s
    have h := ih (Op.apply s op)
    simp only [runOps, List.foldl_cons] at h ⊢
    exact h.trans (apply_accountNumber s op)

/-- What the three `try` statements of `testEdgeCases` do, whatever was
written before: they return normally, leave the account closed with balance
`500`, and append three reports to `std::cerr` among the progress lines. -/
lemma testEdgeCasesBody_eval (out : Transcript) :
    testEdgeCasesBody (BankAccount.init "789101" 500, out) =
      (.ok (),
        ({ accountNumber := "789101", balance := 500, isActive := false },
         out ++
          [(.cout, .str "\nTesting edge cases...\n"),
           (.cout, .str "Depositing -100...\n"),
           (.cerr, .str "Exception: "),
           (.cerr, .str "Cannot deposit a negative amount!"),
           (.cerr, .endl),
           (.cout, .str "Attempting to withdraw $600 (more than balance)...\n"),
           (.cerr, .str "Exception: "),
           (.cerr, .str "Insufficient funds for withdrawal!"),
           (.cerr, .endl),
           (.cout, .str "Closing account...\n"),
           (.cout, .str "Attempting to deposit $50 after closure...\n"),
           (.cerr, .str "Exception: "),
           (.cerr, .str "Transaction not allowed on closed account!"),
           (.cerr, .endl)])) := by
  have h600 : (600 : ℚ) > 500 := by norm_num
  simp only [testEdgeCasesBody, block, tryCatch, put, callDeposit, callWithdraw,
    callCloseAccount, reportException, BankAccount.deposit, BankAccount.withdraw,
    BankAccount.init, BankAccount.closeAccount, Exception.what, Bool.not_true, Bool.not_false,
    Bool.false_eq_true, if_false, if_true, h600, List.map, List.append_assoc, List.cons_append,
    List.nil_append, neg_lt_zero, Nat.ofNat_pos]

/-- What the `try` block of `main` does: it returns normally, with the
account at balance `1500` and the transcript below. -/
lemma mainTry_eval :
    mainTry (BankAccount.init "123456" 1000, []) =
      (.ok (),
        ({ accountNumber := "123456", balance := 1500, isActive := true },
         [(.cout, .str "Bank Account Created: #"), (.cout, .str "123456"), (.cout, .endl),
          (.cout, .str "Depositing $1000..."), (.cout, .endl),
          (.cout, .str "Current Balance: $"), (.cout, .num 2000), (.cout, .endl),
          (.cout, .str "Withdrawing $500..."), (.cout, .endl),
          (.cout, .str "Current Balance: $"), (.cout, .num 1500), (.cout, .endl),
          (.cout, .str "\nTesting edge cases...\n"),
          (.cout, .str "Depositing -100...\n"),
          (.cerr, .str "Exception: "),
          (.cerr, .str "Cannot deposit a negative amount!"),
          (.cerr, .endl),
          (.cout, .str "Attempting to withdraw $600 (more than balance)...\n"),
          (.cerr, .str "Exception: "),
          (.cerr, .str "Insufficient funds for withdrawal!"),
          (.cerr, .endl),
          (.cout, .str "Closing account...\n"),
          (.cout, .str "Attempting to deposit $50 after closure...\n"),
          (.cerr, .str "Exception: "),
          (.cerr, .str "Transaction not allowed on closed account!"),
          (.cerr, .endl)])) := by
  have h0 : ¬ ((1000 : ℚ) < 0) := by norm_num
  have h500 : ¬ ((500 : ℚ) > 1000 + 1000) := by norm_num
  have hsum : (1000 : ℚ) + 1000 = 2000 := by norm_num
  have hdiff : (2000 : ℚ) - 500 = 1500 := by norm_num
  simp only [mainTry, block, put, callDeposit, callWithdraw, putBalance, callTestEdgeCases,
    testEdgeCases, BankAccount.deposit, BankAccount.withdraw, BankAccount.getBalance,
    BankAccount.init, Bool.not_true, Bool.false_eq_true, if_false, h0, h500, List.map,
    List.nil_append, List.cons_append]
  have h := testEdgeCasesBody_eval
    [(OStream.cout, Item.str "Bank Account Created: #"), (OStream.cout, Item.str "123456"),
     (OStream.cout, Item.endl), (OStream.cout, Item.str "Depositing $1000..."),
     (OStream.cout, Item.endl), (OStream.cout, Item.str "Current Balance: $"),
     (OStream.cout, Item.num (1000 + 1000)), (OStream.cout, Item.endl),
     (OStream.cout, Item.str "Withdrawing $500..."), (OStream.cout, Item.endl),
     (OStream.cout, Item.str "Current Balance: $"),
     (OStream.cout, Item.num (1000 + 1000 - 500)), (OStream.cout, Item.endl)]
  simp only [BankAccount.init] at h
  rw [h]
  simp only [hsum, hdiff, List.cons_append, List.nil_append]

namespace Binary64

/-! ## Shared lemmas on binary64 -/

lemma Double.lt_def (a b : Double) : a < b ↔ Double.lt a b = true := Iff.rfl

lemma Double.le_def (a b : Double) : a ≤ b ↔ Double.le a b = true := Iff.rfl

lemma Double.zero_def : (0 : Double) = .fin 0 := rfl

lemma Double.add_def (a b : Double) : a + b = Double.add a b := rfl

lemma Double.sub_def (a b : Double) : a - b = Double.sub a b := rfl

lemma Double.not_lt_of_le (a b : Double) (h : a ≤ b) : ¬ b < a := by
  rw [Double.le_def] at h
  rw [Double.lt_def]
  cases a with
  | nan => simp [Double.le] at h
  | inf n1 =>
    cases b with
    | nan => simp [Double.le] at h
    | inf n2 => cases n1 <;> cases n2 <;> simp_all [Double.le, Double.lt]
    | fin y => cases n1 <;> simp_all [Double.le, Double.lt]
  | fin x =>
    cases b with
    | nan => simp [Double.le] at h
    | inf n2 => cases n2 <;> simp_all [Double.le, Double.lt]
    | fin y => simp_all [Double.le, Double.lt]

lemma Double.not_nan_le (a : Double) : ¬ a ≤ Double.nan := by
  rw [Double.le_def]
  cases a <;> simp [Double.le]

lemma int_log_eq (x : ℚ) (k : ℤ) (h1 : (2 : ℚ) ^ k ≤ x) (h2 : x < 2 ^ (k + 1)) :
    Int.log 2 x = k := by
  have hx : 0 < x := lt_of_lt_of_le (by positivity) h1
  apply le_antisymm
  · have h := (Int.lt_zpow_iff_log_lt (b := 2) (by norm_num) hx (x := k + 1)).mp
      (by exact_mod_cast h2)
    omega
  · exact (Int.zpow_le_iff_le_log (b := 2) (by norm_num) hx).mp (by exact_mod_cast h1)

lemma ulpExponent_eq (x : ℚ) (k : ℤ) (h1 : (2 : ℚ) ^ k ≤ |x|) (h2 : |x| < 2 ^ (k + 1)) :
    ulpExponent x = max (k - 52) (-1074) := by
  unfold ulpExponent
  rw [int_log_eq |x| k h1 h2]

lemma roundHalfEven_intCast (n : ℤ) : roundHalfEven (n : ℚ) = n := by
  simp [roundHalfEven]

lemma roundHalfEven_tie (f : ℤ) :
    roundHalfEven ((f : ℚ) + 1 / 2) = if f % 2 = 0 then f else f + 1 := by
  have hf : ⌊(f : ℚ) + 1 / 2⌋ = f := by
    rw [Int.floor_eq_iff]
    constructor <;> norm_num
  unfold roundHalfEven
  rw [hf]
  norm_num

lemma roundHalfEven_nonneg (q : ℚ) (h : 0 ≤ q) : 0 ≤ roundHalfEven q := by
  have hf : 0 ≤ ⌊q⌋ := Int.floor_nonneg.mpr h
  unfold roundHalfEven
  split_ifs <;> omega

/-- Evaluation of `Double.round` from the binade of `x`. -/
lemma round_of_bounds (x : ℚ) (k e n : ℤ) (h1 : (2 : ℚ) ^ k ≤ |x|) (h2 : |x| < 2 ^ (k + 1))
    (he : max (k - 52) (-1074) = e) (hn : roundHalfEven (x / 2 ^ e) = n)
    (hs : |(n : ℚ) * 2 ^ e| < 2 ^ 1024) :
    Double.round x = .fin (n * 2 ^ e) := by
  unfold Double.round
  rw [ulpExponent_eq x k h1 h2, he, hn, if_neg (not_le.mpr hs)]

lemma round_zero : Double.round 0 = .fin 0 := by
  simp [Double.round, roundHalfEven]

/-- Rounding never turns a non-negative exact result into a negative value
or into NaN. -/
lemma round_nonneg (x : ℚ) (h : 0 ≤ x) : (0 : Double) ≤ Double.round x := by
  rw [Double.le_def, Double.zero_def]
  unfold Double.round
  split_ifs with hbig
  · simp [Double.le, not_lt.mpr h]
  · have hq : 0 ≤ x / 2 ^ ulpExponent x := div_nonneg h (by positivity)
    have hn : (0 : ℚ) ≤ (roundHalfEven (x / 2 ^ ulpExponent x) : ℚ) := by
      exact_mod_cast roundHalfEven_nonneg _ hq
    have hy : (0 : ℚ) ≤ (roundHalfEven (x / 2 ^ ulpExponent x) : ℚ) * 2 ^ ulpExponent x :=
      mul_nonneg hn (by positivity)
    simp [Double.le, hy]

/-- The tie `2 ^ 53 + 1` is rounded to the even neighbour `2 ^ 53`. -/
lemma round_two_pow_53_add_one : Double.round (2 ^ 53 + 1) = .fin (2 ^ 53) := by
  have h := round_of_bounds (2 ^ 53 + 1) 53 1 (2 ^ 52) (by norm_num [abs_of_pos])
    (by norm_num [abs_of_pos]) (by norm_num)
    (by
      have h2 : ((2 : ℚ) ^ 53 + 1) / 2 ^ (1 : ℤ) = ((2 ^ 52 : ℤ) : ℚ) + 1 / 2 := by norm_num
      rw [h2, roundHalfEven_tie]
      norm_num)
    (by norm_num [abs_of_pos])
  rw [h]
  norm_num

/-- The integer `2 ^ 53 - 1` is a binary64 value. -/
lemma round_two_pow_53_sub_one : Double.round (2 ^ 53 - 1) = .fin (2 ^ 53 - 1) := by
  have h := round_of_bounds (2 ^ 53 - 1) 52 0 (2 ^ 53 - 1) (by norm_num [abs_of_pos])
    (by norm_num [abs_of_pos]) (by norm_num)
    (by
      have h2 : ((2 : ℚ) ^ 53 - 1) / 2 ^ (0 : ℤ) = ((2 ^ 53 - 1 : ℤ) : ℚ) := by norm_num
      rw [h2, roundHalfEven_intCast])
    (by norm_num [abs_of_pos])
  rw [h]
  norm_num

/-- The tie `2 ^ 54 - 1` is rounded to the even neighbour `2 ^ 54`. -/
lemma round_two_pow_54_sub_one : Double.round (2 ^ 54 - 1) = .fin (2 ^ 54) := by
  have h := round_of_bounds (2 ^ 54 - 1) 53 1 (2 ^ 53) (by norm_num [abs_of_pos])
    (by norm_num [abs_of_pos]) (by norm_num)
    (by
      have h2 : ((2 : ℚ) ^ 54 - 1) / 2 ^ (1 : ℤ) = ((2 ^ 53 - 1 : ℤ) : ℚ) + 1 / 2 := by
        norm_num
      rw [h2, roundHalfEven_tie]
      norm_num)
    (by norm_num [abs_of_pos])
  rw [h]
  norm_num

/-- Every integer of magnitude below `2 ^ 53` is a binary64 value. -/
lemma representable_intCast (n : ℤ) (h : |n| < 2 ^ 53) : Representable (n : ℚ) := by
  unfold Representable
  by_cases hn : n = 0
  · subst hn
    simpa using round_zero
  · have habs : (1 : ℚ) ≤ |(n : ℚ)| := by
      have h1 : (1 : ℤ) ≤ |n| := Int.one_le_abs hn
      exact_mod_cast h1
    have hpos : (0 : ℚ) < |(n : ℚ)| := lt_of_lt_of_le one_pos habs
    have hlt : |(n : ℚ)| < 2 ^ (53 : ℤ) := by
      have h2 : ((|n| : ℤ) : ℚ) < ((2 ^ 53 : ℤ) : ℚ) := by exact_mod_cast h
      rw [Int.cast_abs] at h2
      calc |(n : ℚ)| < ((2 ^ 53 : ℤ) : ℚ) := h2
        _ = 2 ^ (53 : ℤ) := by norm_num
    obtain ⟨k, hk⟩ : ∃ k : ℤ, Int.log 2 |(n : ℚ)| = k := ⟨_, rfl⟩
    have hk0 : 0 ≤ k := by
      have h3 := (Int.zpow_le_iff_le_log (b := 2) (by norm_num) hpos (x := 0)).mp
        (by simpa using habs)
      omega
    have hk52 : k < 53 := by
      have h3 := (Int.lt_zpow_iff_log_lt (b := 2) (by norm_num) hpos (x := 53)).mp
        (by exact_mod_cast hlt)
      omega
    have he : ulpExponent (n : ℚ) = k - 52 := by
      unfold ulpExponent
      rw [hk]
      exact max_eq_left (by omega)
    obtain ⟨m, hm⟩ : ∃ m : ℕ, (m : ℤ) = 52 - k := ⟨(52 - k).toNat, Int.toNat_of_nonneg (by omega)⟩
    have hdiv : (n : ℚ) / 2 ^ (k - 52) = ((n * 2 ^ m : ℤ) : ℚ) := by
      have h4 : k - 52 = -(m : ℤ) := by omega
      rw [h4, zpow_neg, div_inv_eq_mul, zpow_natCast]
      push_cast
      ring
    have hback : ((n * 2 ^ m : ℤ) : ℚ) * 2 ^ (k - 52) = n := by
      rw [← hdiv]
      exact div_mul_cancel₀ _ (by positivity)
    unfold Double.round
    rw [he, hdiv, roundHalfEven_intCast, hback]
    have hsmall : ¬ (2 : ℚ) ^ 1024 ≤ |(n : ℚ)| := by
      have h5 : (2 : ℚ) ^ (53 : ℤ) < 2 ^ 1024 := by norm_num
      intro h6
      linarith
    rw [if_neg hsmall]

lemma deposit_active_nonneg (s : BankAccount) (amount : Double)
    (hact : s.isActive = true) (hamt : 0 ≤ amount) :
    s.deposit amount =
      (.ok (), { accountNumber := s.accountNumber, balance := s.balance + amount,
                 isActive := true }) := by
  have hlt : ¬ amount < 0 := Double.not_lt_of_le 0 amount hamt
  simp [BankAccount.deposit, hact, hlt]

lemma withdraw_active_le (s : BankAccount) (amount : Double)
    (hact : s.isActive = true) (hamt : amount ≤ s.balance) :
    s.withdraw amount =
      (.ok (), { accountNumber := s.accountNumber, balance := s.balance - amount,
                 isActive := true }) := by
  have hlt : ¬ amount > s.balance := Double.not_lt_of_le amount s.balance hamt
  simp [BankAccount.withdraw, hact, hlt]

end Binary64

namespace Binary64

lemma Double.zero_le_fin (x : ℚ) : (0 : Double) ≤ .fin x ↔ 0 ≤ x := by
  rw [Double.le_def, Double.zero_def]
  simp [Double.le]

lemma Double.fin_lt_fin (x y : ℚ) : (Double.fin x) < .fin y ↔ x < y := by
  rw [Double.lt_def]
  simp [Double.lt]

lemma Double.zero_le_inf (n : Bool) : (0 : Double) ≤ .inf n ↔ n = false := by
  rw [Double.le_def, Double.zero_def]
  cases n <;> simp [Double.le]

/-- A single call with a finite amount keeps a balance that is `≥ 0`. -/
lemma apply_finite_nonneg (s : BankAccount) (op : Op) (h : 0 ≤ s.balance)
    (hfin : op.finiteAmount = true) : 0 ≤ (Op.apply s op).balance := by
  cases op with
  | deposit amount =>
    cases amount with
    | nan => simp [Op.finiteAmount, Double.isFinite] at hfin
    | inf n => simp [Op.finiteAmount, Double.isFinite] at hfin
    | fin a =>
      simp only [Op.apply, BankAccount.deposit]
      split_ifs with h1 h2
      · exact h
      · exact h
      · have ha : 0 ≤ a := by
          rw [Double.zero_def, Double.fin_lt_fin] at h2
          exact not_lt.mp h2
        cases hb : s.balance with
        | nan =>
          rw [hb] at h
          exact absurd h (Double.not_nan_le 0)
        | inf n =>
          rw [hb, Double.zero_le_inf] at h
          subst h
          show (0 : Double) ≤ Double.add (.inf false) (.fin a)
          simp [Double.add, Double.zero_le_inf]
        | fin b =>
          rw [hb, Double.zero_le_fin] at h
          show (0 : Double) ≤ Double.add (.fin b) (.fin a)
          simp only [Double.add]
          exact round_nonneg _ (add_nonneg h ha)
  | withdraw amount =>
    cases amount with
    | nan => simp [Op.finiteAmount, Double.isFinite] at hfin
    | inf n => simp [Op.finiteAmount, Double.isFinite] at hfin
    | fin a =>
      simp only [Op.apply, BankAccount.withdraw]
      split_ifs with h1 h2
      · exact h
      · exact h
      · cases hb : s.balance with
        | nan =>
          rw [hb] at h
          exact absurd h (Double.not_nan_le 0)
        | inf n =>
          rw [hb, Double.zero_le_inf] at h
          subst h
          show (0 : Double) ≤ Double.sub (.inf false) (.fin a)
          simp [Double.sub, Double.zero_le_inf]
        | fin b =>
          have hab : a ≤ b := by
            rw [hb] at h2
            have h3 : ¬ (Double.fin b) < .fin a := h2
            rw [Double.fin_lt_fin] at h3
            exact not_lt.mp h3
          show (0 : Double) ≤ Double.sub (.fin b) (.fin a)
          simp only [Double.sub]
          exact round_nonneg _ (sub_nonneg.mpr hab)
  | getBalance => exact h
  | closeAccount => exact h

lemma runOps_finite_nonneg (ops : List Op) :
    ∀ s : BankAccount, 0 ≤ s.balance → (∀ o ∈ ops, o.finiteAmount = true) →
      0 ≤ (runOps s ops).balance := by
  induction ops with
  | nil => intro s h _; exact h
  | cons op rest ih =>
    intro s h hall
    have h1 := apply_finite_nonneg s op h (hall op (List.mem_cons_self op rest))
    have h2 := ih (Op.apply s op) h1 (fun o ho => hall o (List.mem_cons_of_mem op ho))
    simp only [runOps, List.foldl_cons] at h2 ⊢
    exact h2

end Binary64

/-! ## C1 -/

namespace Binary64

/-- C1 as stated fails on `double`: on the active account with balance
`2 ^ 53`, `deposit 1` returns normally and the balance is still `2 ^ 53`, not
the exact sum `2 ^ 53 + 1`. -/
theorem deposit_sum_not_exact :
    (BankAccount.init "123456" (.fin (2 ^ 53))).deposit (.fin 1) =
        (.ok (), BankAccount.init "123456" (.fin (2 ^ 53))) ∧
      ((BankAccount.init "123456" (.fin (2 ^ 53))).deposit (.fin 1)).2.balance ≠
        .fin (2 ^ 53 + 1) := by
  have hev : (BankAccount.init "123456" (.fin (2 ^ 53))).deposit (.fin 1) =
      (.ok (), BankAccount.init "123456" (.fin (2 ^ 53))) := by
    have h0 : (0 : Double) ≤ .fin 1 := by
      rw [Double.le_def, Double.zero_def]
      simp [Double.le]
    rw [deposit_active_nonneg _ _ rfl h0]
    simp only [BankAccount.init, Double.add_def, Double.add, round_two_pow_53_add_one]
  refine ⟨hev, ?_⟩
  rw [hev]
  simp only [BankAccount.init]
  intro h
  have h2 : (2 : ℚ) ^ 53 = 2 ^ 53 + 1 := Double.fin.inj h
  norm_num at h2

/-- C1 (amended): on an active account with balance `b`, `deposit amount`
with `amount ≥ 0` (zero included; NaN is not `≥ 0`) returns normally and
leaves the account active, with the same account number and balance the
`double` sum `b + amount`; for finite `b` and `amount` that is the exact sum
rounded to binary64, hence exactly `b + amount` whenever the exact sum is a
binary64 value. -/
theorem deposit_nonneg_rounded_sum (s : BankAccount) (amount : Double)
    (hact : s.isActive = true) (hamt : 0 ≤ amount) :
    s.deposit amount =
        (.ok (), { accountNumber := s.accountNumber, balance := s.balance + amount,
                   isActive := true }) ∧
      (∀ b a : ℚ, s.balance = .fin b → amount = .fin a →
        (s.deposit amount).2.balance = Double.round (b + a) ∧
          (Representable (b + a) → (s.deposit amount).2.balance = .fin (b + a))) := by
  have h := deposit_active_nonneg s amount hact hamt
  refine ⟨h, fun b a hb ha => ?_⟩
  have hbal : (s.deposit amount).2.balance = Double.round (b + a) := by
    rw [h]
    simp only [hb, ha, Double.add_def, Double.add]
  exact ⟨hbal, fun hrep => hbal.trans hrep⟩

theorem deposit_nonneg_rounded_sum_witness :
    (BankAccount.init "123456" (.fin 1000)).deposit (.fin 1000) =
        (.ok (), { accountNumber := "123456", balance := .fin 1000 + .fin 1000,
                   isActive := true }) ∧
      ((BankAccount.init "123456" (.fin 1000)).deposit (.fin 1000)).2.balance =
        .fin (1000 + 1000) :=
  ⟨(deposit_nonneg_rounded_sum (BankAccount.init "123456" (.fin 1000)) (.fin 1000) rfl
      (by rw [Double.le_def, Double.zero_def]; simp [Double.le])).1,
    ((deposit_nonneg_rounded_sum (BankAccount.init "123456" (.fin 1000)) (.fin 1000) rfl
      (by rw [Double.le_def, Double.zero_def]; simp [Double.le])).2 1000 1000 rfl rfl).2
      (by
        have h := representable_intCast 2000 (by norm_num)
        have h2 : ((2000 : ℤ) : ℚ) = 1000 + 1000 := by norm_num
        rwa [h2] at h)⟩

end Binary64

/-! ## C2 -/

namespace Binary64

/-- C2 as stated fails on `double`: on the active account with balance
`2 ^ 53 + 2`, `withdraw 1` returns normally and leaves `2 ^ 53`, not the exact
difference `2 ^ 53 + 1`; and at the boundary `amount = b` with `b = +∞`,
`withdraw` returns normally and leaves NaN, not `0`. -/
theorem withdraw_difference_not_exact :
    ((BankAccount.init "789101" (.fin (2 ^ 53 + 2))).withdraw (.fin 1) =
        (.ok (), BankAccount.init "789101" (.fin (2 ^ 53))) ∧
      ((BankAccount.init "789101" (.fin (2 ^ 53 + 2))).withdraw (.fin 1)).2.balance ≠
        .fin (2 ^ 53 + 2 - 1)) ∧
    (BankAccount.init "789101" (.inf false)).withdraw (.inf false) =
      (.ok (), BankAccount.init "789101" .nan) := by
  have hev : (BankAccount.init "789101" (.fin (2 ^ 53 + 2))).withdraw (.fin 1) =
      (.ok (), BankAccount.init "789101" (.fin (2 ^ 53))) := by
    have h0 : Double.fin 1 ≤ (BankAccount.init "789101" (.fin (2 ^ 53 + 2))).balance := by
      rw [Double.le_def]
      simp only [BankAccount.init, Double.le]
      norm_num
    rw [withdraw_active_le _ _ rfl h0]
    have h1 : ((2 : ℚ) ^ 53 + 2) - 1 = 2 ^ 53 + 1 := by norm_num
    simp only [BankAccount.init, Double.sub_def, Double.sub, h1, round_two_pow_53_add_one]
  refine ⟨⟨hev, ?_⟩, ?_⟩
  · rw [hev]
    simp only [BankAccount.init]
    intro h
    have h2 : (2 : ℚ) ^ 53 = 2 ^ 53 + 2 - 1 := Double.fin.inj h
    norm_num at h2
  · have h0 : Double.inf false ≤ (BankAccount.init "789101" (.inf false)).balance := by
      rw [Double.le_def]
      simp [BankAccount.init, Double.le]
    rw [withdraw_active_le _ _ rfl h0]
    simp [BankAccount.init, Double.sub_def, Double.sub]

/-- C2 (amended): on an active account with balance `b`, `withdraw amount`
with `amount ≤ b` returns normally and leaves the account active, with the
same account number and balance the `double` difference `b - amount`; for
finite `b` and `amount` that is the exact difference rounded to binary64,
hence exactly `b - amount` whenever the exact difference is a binary64
value; at the boundary `amount = b` with `b` finite the call is accepted and
the balance left is `0`. -/
theorem withdraw_le_balance_rounded_difference (s : BankAccount) (amount : Double)
    (hact : s.isActive = true) (hamt : amount ≤ s.balance) :
    s.withdraw amount =
        (.ok (), { accountNumber := s.accountNumber, balance := s.balance - amount,
                   isActive := true }) ∧
      (∀ b a : ℚ, s.balance = .fin b → amount = .fin a →
        (s.withdraw amount).2.balance = Double.round (b - a) ∧
          (Representable (b - a) → (s.withdraw amount).2.balance = .fin (b - a)) ∧
          (a = b → (s.withdraw amount).2.balance = .fin 0)) := by
  have h := withdraw_active_le s amount hact hamt
  refine ⟨h, fun b a hb ha => ?_⟩
  have hbal : (s.withdraw amount).2.balance = Double.round (b - a) := by
    rw [h]
    simp only [hb, ha, Double.sub_def, Double.sub]
  refine ⟨hbal, fun hrep => hbal.trans hrep, fun hab => ?_⟩
  rw [hbal, hab, sub_self, round_zero]

theorem withdraw_le_balance_rounded_difference_witness :
    (BankAccount.init "789101" (.fin 500)).withdraw (.fin 500) =
        (.ok (), { accountNumber := "789101", balance := .fin 500 - .fin 500,
                   isActive := true }) ∧
      ((BankAccount.init "789101" (.fin 500)).withdraw (.fin 500)).2.balance = .fin 0 :=
  ⟨(withdraw_le_balance_rounded_difference (BankAccount.init "789101" (.fin 500)) (.fin 500)
      rfl (by rw [Double.le_def]; simp [BankAccount.init, Double.le])).1,
    ((withdraw_le_balance_rounded_difference (BankAccount.init "789101" (.fin 500)) (.fin 500)
      rfl (by rw [Double.le_def]; simp [BankAccount.init, Double.le])).2 500 500 rfl rfl).2.2
      rfl⟩

end Binary64

/-! ## C3 -/

/-- C3: on an active account, `deposit amount` with `amount < 0` throws
`NegativeDepositException` and the balance afterwards is the balance before. -/
theorem deposit_negative_throws (s : BankAccount) (amount : ℚ)
    (hact : s.isActive = true) (hamt : amount < 0) :
    (s.deposit amount).1 = .error .NegativeDepositException ∧
      (s.deposit amount).2.getBalance = s.getBalance := by
  simp [BankAccount.deposit, hact, hamt]

theorem deposit_negative_throws_witness :
    ((BankAccount.init "789101" 500).deposit (-100)).1 = .error .NegativeDepositException ∧
      ((BankAccount.init "789101" 500).deposit (-100)).2.getBalance =
        (BankAccount.init "789101" 500).getBalance :=
  deposit_negative_throws (BankAccount.init "789101" 500) (-100) rfl (by norm_num)

/-! ## C4 -/

/-- C4: on an active account with balance `b`, `withdraw amount` with
`amount > b` throws `OverdrawException` and the balance afterwards is still
`b`. -/
theorem withdraw_above_balance_throws (s : BankAccount) (amount : ℚ)
    (hact : s.isActive = true) (hamt : s.balance < amount) :
    (s.withdraw amount).1 = .error .OverdrawException ∧
      (s.withdraw amount).2.getBalance = s.getBalance := by
  simp [BankAccount.withdraw, hact, hamt]

theorem withdraw_above_balance_throws_witness :
    ((BankAccount.init "789101" 500).withdraw 600).1 = .error .OverdrawException ∧
      ((BankAccount.init "789101" 500).withdraw 600).2.getBalance =
        (BankAccount.init "789101" 500).getBalance :=
  withdraw_above_balance_throws (BankAccount.init "789101" 500) 600 rfl
    (by simp only [BankAccount.init]; norm_num)

/-! ## C5 -/

/-- C5: on a closed account, for every amount whatsoever, both `deposit` and
`withdraw` throw `InvalidAccountOperationException`, hence neither
`NegativeDepositException` nor `OverdrawException`, and leave the balance
unchanged: the active-state check comes before the amount check. -/
theorem closed_account_rejects_all (s : BankAccount) (amount : ℚ)
    (hclosed : s.isActive = false) :
    ((s.deposit amount).1 = .error .InvalidAccountOperationException ∧
      (s.deposit amount).1 ≠ .error .NegativeDepositException ∧
      (s.deposit amount).1 ≠ .error .OverdrawException ∧
      (s.deposit amount).2.getBalance = s.getBalance) ∧
    ((s.withdraw amount).1 = .error .InvalidAccountOperationException ∧
      (s.withdraw amount).1 ≠ .error .NegativeDepositException ∧
      (s.withdraw amount).1 ≠ .error .OverdrawException ∧
      (s.withdraw amount).2.getBalance = s.getBalance) := by
  rw [deposit_inactive s amount hclosed, withdraw_inactive s amount hclosed]
  simp

theorem closed_account_rejects_all_witness :
    (((BankAccount.init "789101" 500).closeAccount.deposit (-100)).1 =
        .error .InvalidAccountOperationException ∧
      ((BankAccount.init "789101" 500).closeAccount.deposit (-100)).1 ≠
        .error .NegativeDepositException ∧
      ((BankAccount.init "789101" 500).closeAccount.deposit (-100)).1 ≠
        .error .OverdrawException ∧
      ((BankAccount.init "789101" 500).closeAccount.deposit (-100)).2.getBalance =
        (BankAccount.init "789101" 500).closeAccount.getBalance) ∧
    (((BankAccount.init "789101" 500).closeAccount.withdraw (-100)).1 =
        .error .InvalidAccountOperationException ∧
      ((BankAccount.init "789101" 500).closeAccount.withdraw (-100)).1 ≠
        .error .NegativeDepositException ∧
      ((BankAccount.init "789101" 500).closeAccount.withdraw (-100)).1 ≠
        .error .OverdrawException ∧
      ((BankAccount.init "789101" 500).closeAccount.withdraw (-100)).2.getBalance =
        (BankAccount.init "789101" 500).closeAccount.getBalance) :=
  closed_account_rejects_all (BankAccount.init "789101" 500).closeAccount (-100) rfl

/-! ## C6 -/

/-- C6: `closeAccount` is a total function with no throwing path; its result
always has `isActive = false` with the balance and the account number
unchanged, and closing twice gives the same state as closing once. -/
theorem closeAccount_idempotent (s : BankAccount) :
    s.closeAccount.isActive = false ∧
      s.closeAccount.balance = s.balance ∧
      s.closeAccount.accountNumber = s.accountNumber ∧
      s.closeAccount.closeAccount = s.closeAccount :=
  ⟨rfl, rfl, rfl, rfl⟩

/-! ## C7 -/

/-- C7: whenever `deposit` or `withdraw` throws, whatever the exception, the
whole object state (account number, balance and active flag) is the state
before the call. -/
theorem failed_operation_leaves_state (s : BankAccount) (amount : ℚ) (e : Exception) :
    ((s.deposit amount).1 = .error e → (s.deposit amount).2 = s) ∧
      ((s.withdraw amount).1 = .error e → (s.withdraw amount).2 = s) := by
  constructor
  · unfold BankAccount.deposit
    split_ifs <;> simp
  · unfold BankAccount.withdraw
    split_ifs <;> simp

theorem failed_operation_leaves_state_witness :
    ((((BankAccount.init "789101" 500).deposit (-100)).1 =
          .error .NegativeDepositException →
        ((BankAccount.init "789101" 500).deposit (-100)).2 = BankAccount.init "789101" 500) ∧
      (((BankAccount.init "789101" 500).withdraw (-100)).1 =
          .error .NegativeDepositException →
        ((BankAccount.init "789101" 500).withdraw (-100)).2 = BankAccount.init "789101" 500)) ∧
    ((BankAccount.init "789101" 500).deposit (-100)).1 = .error .NegativeDepositException :=
  ⟨failed_operation_leaves_state (BankAccount.init "789101" 500) (-100)
      .NegativeDepositException,
    (deposit_negative_case (BankAccount.init "789101" 500) (-100) rfl (by norm_num))⟩

/-! ## C8 -/

/-- C8: once an account is closed, after every finite sequence of calls
(`deposit`, `withdraw`, `closeAccount`, `getBalance`, with arbitrary amounts)
the balance read by `getBalance` is the balance at the moment of closing. -/
theorem closed_balance_frozen (s : BankAccount) (ops : List Op)
    (hclosed : s.isActive = false) :
    (runOps s ops).getBalance = s.getBalance :=
  (runOps_inactive ops s hclosed).2

theorem closed_balance_frozen_witness :
    (runOps (BankAccount.init "789101" 500).closeAccount
        [.deposit 50, .withdraw (-20), .getBalance, .closeAccount, .withdraw 100]).getBalance =
      (BankAccount.init "789101" 500).closeAccount.getBalance :=
  closed_balance_frozen (BankAccount.init "789101" 500).closeAccount
    [.deposit 50, .withdraw (-20), .getBalance, .closeAccount, .withdraw 100] rfl

/-! ## C9 -/

/-- C9: no single call (`deposit`, `withdraw`, `getBalance`, `closeAccount`,
returning or throwing) takes a state with `isActive = false` to a state with
`isActive = true`; hence every state reached from the result of
`closeAccount` by a finite sequence of calls is still closed. -/
theorem closure_is_one_way (s : BankAccount) (op : Op) (ops : List Op) :
    (s.isActive = false → (Op.apply s op).isActive = false) ∧
      (runOps s.closeAccount ops).isActive = false :=
  ⟨fun h => (apply_inactive s op h).1, (runOps_inactive ops s.closeAccount rfl).1⟩

theorem closure_is_one_way_witness :
    (BankAccount.init "789101" 500).closeAccount.isActive = false ∧
      (Op.apply (BankAccount.init "789101" 500).closeAccount (.deposit 50)).isActive = false ∧
      (runOps (BankAccount.init "789101" 500).closeAccount.closeAccount
        [.deposit 50, .withdraw 10]).isActive = false :=
  ⟨rfl,
    (closure_is_one_way (BankAccount.init "789101" 500).closeAccount (.deposit 50)
      [.deposit 50, .withdraw 10]).1 rfl,
    (closure_is_one_way (BankAccount.init "789101" 500).closeAccount (.deposit 50)
      [.deposit 50, .withdraw 10]).2⟩

/-! ## C10 -/

/-- Where a change of balance can come from, as the code has it: a call that
lowers the balance is a `withdraw` with `0 < amount ≤` the previous balance on
an active account; a call that raises it is either a `deposit` with
`amount > 0` or a `withdraw` with `amount < 0`, on an active account. -/
theorem balance_change_origin (s : BankAccount) (op : Op) :
    ((Op.apply s op).balance < s.balance →
        s.isActive = true ∧ ∃ a, op = .withdraw a ∧ 0 < a ∧ a ≤ s.balance) ∧
      (s.balance < (Op.apply s op).balance →
        s.isActive = true ∧
          ((∃ a, op = .deposit a ∧ 0 < a) ∨ (∃ a, op = .withdraw a ∧ a < 0))) := by
  cases op with
  | deposit a =>
    simp only [Op.apply, BankAccount.deposit]
    split_ifs with h1 h2 <;> simp_all
  | withdraw a =>
    simp only [Op.apply, BankAccount.withdraw]
    split_ifs with h1 h2
    · simp
    · simp
    · simp only [not_lt] at h2
      have hact : s.isActive = true := by simpa using h1
      refine ⟨fun h => ?_, fun h => ?_⟩
      · have h3 : s.balance - a < s.balance := h
        exact ⟨hact, a, rfl, by linarith, h2⟩
      · have h3 : s.balance < s.balance - a := h
        exact ⟨hact, Or.inr ⟨a, rfl, by linarith⟩⟩
  | getBalance => simp [Op.apply]
  | closeAccount => simp [Op.apply, BankAccount.closeAccount]

/-- C10 (fails on the code): `withdraw (-5)` on an active account with
balance `10` returns normally and leaves balance `15`, so a call that is not a
`deposit` has raised the balance; the statement "every call that raises the
balance is a `deposit` with `amount ≥ 0`" is false. -/
theorem withdraw_negative_raises_balance :
    (BankAccount.init "123456" 10).withdraw (-5) =
        (.ok (), { accountNumber := "123456", balance := 15, isActive := true }) ∧
      ¬ (∀ (s : BankAccount) (op : Op),
          s.balance < (Op.apply s op).balance → ∃ a, op = .deposit a ∧ 0 ≤ a) := by
  have hev : (BankAccount.init "123456" 10).withdraw (-5) =
      (.ok (), { accountNumber := "123456", balance := 15, isActive := true }) := by
    simp [BankAccount.withdraw, BankAccount.init]
    norm_num
  refine ⟨hev, fun hall => ?_⟩
  have hlt : (BankAccount.init "123456" 10).balance <
      (Op.apply (BankAccount.init "123456" 10) (.withdraw (-5))).balance := by
    rw [Op.apply, hev]
    simp only [BankAccount.init]
    norm_num
  obtain ⟨a, ha, _⟩ := hall _ _ hlt
  cases ha

/-! ## C11 -/

namespace Binary64

/-- C11 as stated fails: on the active account with balance `-10`,
`withdraw (-5)` is rejected with `OverdrawException` (since `-5 > -10`) and
the balance stays `-10`; and on the active account with balance `2 ^ 53`,
`withdraw (-1)` returns normally but leaves the balance at `2 ^ 53`, not
strictly greater. -/
theorem withdraw_negative_not_always_raising :
    (BankAccount.init "789101" (.fin (-10))).withdraw (.fin (-5)) =
        (.error .OverdrawException, BankAccount.init "789101" (.fin (-10))) ∧
      (BankAccount.init "789101" (.fin (2 ^ 53))).withdraw (.fin (-1)) =
        (.ok (), BankAccount.init "789101" (.fin (2 ^ 53))) ∧
      ¬ (BankAccount.init "789101" (.fin (2 ^ 53))).balance <
        ((BankAccount.init "789101" (.fin (2 ^ 53))).withdraw (.fin (-1))).2.balance := by
  have h1 : (BankAccount.init "789101" (.fin (-10))).withdraw (.fin (-5)) =
      (.error .OverdrawException, BankAccount.init "789101" (.fin (-10))) := by
    have hgt : Double.fin (-5) > (BankAccount.init "789101" (.fin (-10))).balance := by
      show (Double.fin (-10)) < .fin (-5)
      rw [Double.fin_lt_fin]
      norm_num
    simp only [BankAccount.init] at hgt
    simp only [BankAccount.withdraw, BankAccount.init, Bool.not_true, Bool.false_eq_true,
      if_false, if_pos hgt]
  have h2 : (BankAccount.init "789101" (.fin (2 ^ 53))).withdraw (.fin (-1)) =
      (.ok (), BankAccount.init "789101" (.fin (2 ^ 53))) := by
    have hle : Double.fin (-1) ≤ (BankAccount.init "789101" (.fin (2 ^ 53))).balance := by
      rw [Double.le_def]
      simp only [BankAccount.init, Double.le]
      norm_num
    rw [withdraw_active_le _ _ rfl hle]
    have h3 : (2 : ℚ) ^ 53 - -1 = 2 ^ 53 + 1 := by norm_num
    simp only [BankAccount.init, Double.sub_def, Double.sub, h3, round_two_pow_53_add_one]
  refine ⟨h1, h2, ?_⟩
  rw [h2]
  simp only [BankAccount.init, Double.fin_lt_fin]
  exact lt_irrefl _

/-- C11 (amended): on an active account with balance `b`, `withdraw amount`
with `amount < 0` and `amount ≤ b` is not rejected: it returns normally and
leaves the account active with balance the `double` difference `b - amount`;
for finite `b` and `amount` that is the exact difference rounded to binary64,
and it is strictly greater than `b` whenever the exact difference is a
binary64 value. -/
theorem withdraw_negative_rounded_difference (s : BankAccount) (amount : Double)
    (hact : s.isActive = true) (hneg : amount < 0) (hle : amount ≤ s.balance) :
    s.withdraw amount =
        (.ok (), { accountNumber := s.accountNumber, balance := s.balance - amount,
                   isActive := true }) ∧
      (∀ b a : ℚ, s.balance = .fin b → amount = .fin a →
        (s.withdraw amount).2.balance = Double.round (b - a) ∧
          (Representable (b - a) → s.balance < (s.withdraw amount).2.balance)) := by
  have h := withdraw_active_le s amount hact hle
  refine ⟨h, fun b a hb ha => ?_⟩
  have hbal : (s.withdraw amount).2.balance = Double.round (b - a) := by
    rw [h]
    simp only [hb, ha, Double.sub_def, Double.sub]
  refine ⟨hbal, fun hrep => ?_⟩
  have ha0 : a < 0 := by
    rw [ha, Double.zero_def, Double.fin_lt_fin] at hneg
    exact hneg
  rw [hbal, hrep, hb, Double.fin_lt_fin]
  linarith

theorem withdraw_negative_rounded_difference_witness :
    (BankAccount.init "789101" (.fin 500)).withdraw (.fin (-100)) =
        (.ok (), { accountNumber := "789101", balance := .fin 500 - .fin (-100),
                   isActive := true }) ∧
      (BankAccount.init "789101" (.fin 500)).balance <
        ((BankAccount.init "789101" (.fin 500)).withdraw (.fin (-100))).2.balance :=
  ⟨(withdraw_negative_rounded_difference (BankAccount.init "789101" (.fin 500))
      (.fin (-100)) rfl
      (by rw [Double.zero_def, Double.fin_lt_fin]; norm_num)
      (by rw [Double.le_def]; simp only [BankAccount.init, Double.le]; norm_num)).1,
    ((withdraw_negative_rounded_difference (BankAccount.init "789101" (.fin 500))
      (.fin (-100)) rfl
      (by rw [Double.zero_def, Double.fin_lt_fin]; norm_num)
      (by rw [Double.le_def]; simp only [BankAccount.init, Double.le]; norm_num)).2
      500 (-100) rfl rfl).2
      (by
        have h := representable_intCast 600 (by norm_num)
        have h2 : ((600 : ℤ) : ℚ) = 500 - -100 := by norm_num
        rwa [h2] at h)⟩

end Binary64

/-! ## C12 -/

/-- C12: `getBalance` is a total function of the state that returns the
stored balance, for active and closed accounts alike; a call leaves every
field as it was, and the driver statement that prints it returns normally
with the account untouched. -/
theorem getBalance_reads_only (s : BankAccount) (out : Transcript) :
    s.getBalance = s.balance ∧
      s.closeAccount.getBalance = s.balance ∧
      Op.apply s .getBalance = s ∧
      (putBalance (s, out)).1 = .ok () ∧
      (putBalance (s, out)).2.1 = s :=
  ⟨rfl, rfl, rfl, rfl, rfl⟩

/-! ## C13 -/

/-- C13: from the account created with balance `1000`, `deposit 1000`
returns normally and `getBalance` is `2000`; then `withdraw 500` returns
normally and `getBalance` is `1500`; these are the two balances `main`
prints. -/
theorem main_scenario :
    (BankAccount.init "123456" 1000).deposit 1000 =
        (.ok (), { accountNumber := "123456", balance := 2000, isActive := true }) ∧
      ((BankAccount.init "123456" 1000).deposit 1000).2.getBalance = 2000 ∧
      ((BankAccount.init "123456" 1000).deposit 1000).2.withdraw 500 =
        (.ok (), { accountNumber := "123456", balance := 1500, isActive := true }) ∧
      (((BankAccount.init "123456" 1000).deposit 1000).2.withdraw 500).2.getBalance = 1500 ∧
      main.2.nums = [2000, 1500] := by
  have h1 : (BankAccount.init "123456" 1000).deposit 1000 =
      (.ok (), { accountNumber := "123456", balance := 2000, isActive := true }) := by
    simp [BankAccount.deposit, BankAccount.init]
    norm_num
  have h2 : ({ accountNumber := "123456", balance := 2000, isActive := true } :
      BankAccount).withdraw 500 =
      (.ok (), { accountNumber := "123456", balance := 1500, isActive := true }) := by
    simp [BankAccount.withdraw]
    norm_num
  refine ⟨h1, ?_, ?_, ?_, ?_⟩
  · rw [h1]; rfl
  · rw [h1]; exact h2
  · rw [h1]; show (BankAccount.withdraw _ 500).2.getBalance = 1500; rw [h2]; rfl
  · simp [main, tryCatch, mainTry_eval, Transcript.nums]

/-! ## C14 -/

/-- C14: on the one account `testEdgeCases` creates with balance `500`:
`deposit (-100)` throws `NegativeDepositException` and leaves the state as it
was, then `withdraw 600` throws `OverdrawException` and leaves the state as
it was, then after `closeAccount` the call `deposit 50` throws
`InvalidAccountOperationException`; the balance is `500` after every step;
`testEdgeCases` reports exactly these three exceptions on `std::cerr`, in
this order, and the three messages are pairwise distinct. -/
theorem edge_case_scenario :
    (BankAccount.init "789101" 500).deposit (-100) =
        (.error .NegativeDepositException, BankAccount.init "789101" 500) ∧
      (BankAccount.init "789101" 500).withdraw 600 =
        (.error .OverdrawException, BankAccount.init "789101" 500) ∧
      (BankAccount.init "789101" 500).closeAccount.deposit 50 =
        (.error .InvalidAccountOperationException,
          (BankAccount.init "789101" 500).closeAccount) ∧
      (BankAccount.init "789101" 500).getBalance = 500 ∧
      (BankAccount.init "789101" 500).closeAccount.getBalance = 500 ∧
      (testEdgeCasesBody (BankAccount.init "789101" 500, [])).2.1 =
        (BankAccount.init "789101" 500).closeAccount ∧
      (testEdgeCases []).2.errItems =
        [.str "Exception: ", .str Exception.NegativeDepositException.what, .endl,
         .str "Exception: ", .str Exception.OverdrawException.what, .endl,
         .str "Exception: ", .str Exception.InvalidAccountOperationException.what, .endl] ∧
      Exception.NegativeDepositException.what = "Cannot deposit a negative amount!" ∧
      Exception.OverdrawException.what = "Insufficient funds for withdrawal!" ∧
      Exception.InvalidAccountOperationException.what =
        "Transaction not allowed on closed account!" ∧
      (∀ e1 e2 : Exception, e1.what = e2.what → e1 = e2) := by
  refine ⟨?_, ?_, ?_, rfl, rfl, ?_, ?_, rfl, rfl, rfl, ?_⟩
  · simp [BankAccount.deposit, BankAccount.init]
  · simp [BankAccount.withdraw, BankAccount.init]
    norm_num
  · simp [BankAccount.deposit, BankAccount.init, BankAccount.closeAccount]
  · rw [testEdgeCasesBody_eval]
    rfl
  · simp [testEdgeCases, testEdgeCasesBody_eval, Transcript.errItems, Exception.what]
  · intro e1 e2 h
    cases e1 <;> cases e2 <;> first | rfl | (simp [Exception.what] at h)

/-! ## C15 -/

/-- C15: the constructor is a total function of any account number and any
initial balance, negative ones included; the account it creates is active,
`getBalance` returns the given initial balance and the account number is the
given one. -/
theorem init_creates_active_account (accNum : String) (initialBalance : ℚ) :
    (BankAccount.init accNum initialBalance).isActive = true ∧
      (BankAccount.init accNum initialBalance).getBalance = initialBalance ∧
      (BankAccount.init accNum initialBalance).accountNumber = accNum ∧
      (BankAccount.init "789101" (-10)).isActive = true ∧
      (BankAccount.init "789101" (-10)).getBalance = -10 :=
  ⟨rfl, rfl, rfl, rfl, rfl⟩

/-! ## C16 -/

/-- C16: no call (`deposit`, `withdraw`, `closeAccount`, `getBalance`;
returning or throwing) changes the account number, and after every finite
sequence of calls on a created account the account number is the one given
at creation. -/
theorem accountNumber_immutable (s : BankAccount) (op : Op) (accNum : String)
    (initialBalance : ℚ) (ops : List Op) :
    (Op.apply s op).accountNumber = s.accountNumber ∧
      (runOps (BankAccount.init accNum initialBalance) ops).accountNumber = accNum :=
  ⟨apply_accountNumber s op, runOps_accountNumber ops (BankAccount.init accNum initialBalance)⟩

/-! ## C17 -/

namespace Binary64

/-- C17 as stated fails on `double`: on the active account with balance
`500`, which is `≥ 0`, `deposit NaN` and `withdraw NaN` pass both guards
(every comparison with NaN is false) and leave the balance NaN, which is not
`≥ 0`. -/
theorem nan_amount_breaks_nonneg :
    (0 : Double) ≤ (BankAccount.init "789101" (.fin 500)).balance ∧
      (BankAccount.init "789101" (.fin 500)).deposit .nan =
        (.ok (), BankAccount.init "789101" .nan) ∧
      (BankAccount.init "789101" (.fin 500)).withdraw .nan =
        (.ok (), BankAccount.init "789101" .nan) ∧
      ¬ (0 : Double) ≤
        (Op.apply (BankAccount.init "789101" (.fin 500)) (.deposit .nan)).balance := by
  have hd : (BankAccount.init "789101" (.fin 500)).deposit .nan =
      (.ok (), BankAccount.init "789101" .nan) := by
    have hlt : ¬ Double.nan < 0 := by
      rw [Double.lt_def]
      simp [Double.lt]
    simp [BankAccount.deposit, BankAccount.init, hlt, Double.add_def, Double.add]
  have hw : (BankAccount.init "789101" (.fin 500)).withdraw .nan =
      (.ok (), BankAccount.init "789101" .nan) := by
    have hgt : ¬ Double.nan > (BankAccount.init "789101" (.fin 500)).balance := by
      show ¬ (Double.fin 500) < .nan
      rw [Double.lt_def]
      simp [Double.lt]
    simp only [BankAccount.withdraw, BankAccount.init] at hgt ⊢
    simp [hgt, Double.sub_def, Double.sub]
  refine ⟨?_, hd, hw, ?_⟩
  · simp only [BankAccount.init, Double.zero_le_fin]
    norm_num
  · simp only [Op.apply, hd, BankAccount.init]
    exact Double.not_nan_le 0

/-- C17 (amended): if the balance is `≥ 0`, it is still `≥ 0` (possibly `+∞`,
never negative, never NaN) after any single call (`deposit`, `withdraw`,
`getBalance` or `closeAccount`, returning or throwing) whose amount is
finite; hence an account created with an initial balance `≥ 0` has a balance
`≥ 0` after every finite sequence of calls with finite amounts; an account
created with a negative balance has no such guarantee: created with `-10` it
still has a negative balance after `deposit 5`. -/
theorem nonneg_balance_preserved_finite (s : BankAccount) (op : Op) (accNum : String)
    (initialBalance : Double) (ops : List Op) :
    (0 ≤ s.balance → op.finiteAmount = true → 0 ≤ (Op.apply s op).balance) ∧
      (0 ≤ initialBalance → (∀ o ∈ ops, o.finiteAmount = true) →
        0 ≤ (runOps (BankAccount.init accNum initialBalance) ops).balance) ∧
      (Op.apply (BankAccount.init "789101" (.fin (-10))) (.deposit (.fin 5))).balance < 0 := by
  refine ⟨apply_finite_nonneg s op, fun h hall => runOps_finite_nonneg ops _ h hall, ?_⟩
  have h0 : (0 : Double) ≤ .fin 5 := by
    rw [Double.zero_le_fin]
    norm_num
  have h5 : Double.round (-10 + 5) = .fin (-5) := by
    have h := representable_intCast (-5) (by norm_num)
    have h2 : ((-5 : ℤ) : ℚ) = -10 + 5 := by norm_num
    unfold Representable at h
    rw [h2] at h
    rw [h]
    norm_num
  have hd := deposit_active_nonneg (BankAccount.init "789101" (.fin (-10))) (.fin 5) rfl h0
  rw [Op.apply, hd]
  simp only [BankAccount.init, Double.add_def, Double.add, h5, Double.zero_def,
    Double.fin_lt_fin]
  norm_num

theorem nonneg_balance_preserved_finite_witness :
    0 ≤ (Op.apply (BankAccount.init "789101" (.fin 500)) (.withdraw (.fin 500))).balance ∧
      0 ≤ (runOps (BankAccount.init "789101" (.fin 500))
        [.deposit (.fin (-100)), .withdraw (.fin 600), .withdraw (.fin 500),
         .withdraw (.fin (-3))]).balance :=
  ⟨(nonneg_balance_preserved_finite (BankAccount.init "789101" (.fin 500))
      (.withdraw (.fin 500)) "789101" (.fin 500)
      [.deposit (.fin (-100)), .withdraw (.fin 600), .withdraw (.fin 500),
       .withdraw (.fin (-3))]).1
      (by simp only [BankAccount.init, Double.zero_le_fin]; norm_num) rfl,
    (nonneg_balance_preserved_finite (BankAccount.init "789101" (.fin 500))
      (.withdraw (.fin 500)) "789101" (.fin 500)
      [.deposit (.fin (-100)), .withdraw (.fin 600), .withdraw (.fin 500),
       .withdraw (.fin (-3))]).2.1
      (by rw [Double.zero_le_fin]; norm_num)
      (by intro o ho; simp at ho; rcases ho with rfl | rfl | rfl | rfl <;> rfl)⟩

end Binary64

/-! ## C18 -/

namespace Binary64

/-- C18 as stated fails on `double`: on the active account with balance
`2 ^ 53`, `deposit 1` then `withdraw 1` both return normally and leave balance
`2 ^ 53 - 1`, not the original state; and on the active account with balance
`-1`, `withdraw (2 ^ 54)` after `deposit (2 ^ 54)` is not rejected: it returns
normally and leaves balance `0`. -/
theorem round_trip_not_exact :
    ((BankAccount.init "123456" (.fin (2 ^ 53))).deposit (.fin 1)).2.withdraw (.fin 1) =
        (.ok (), BankAccount.init "123456" (.fin (2 ^ 53 - 1))) ∧
      BankAccount.init "123456" (.fin (2 ^ 53 - 1)) ≠
        BankAccount.init "123456" (.fin (2 ^ 53)) ∧
      ((BankAccount.init "123456" (.fin (-1))).deposit (.fin (2 ^ 54))).2.withdraw
          (.fin (2 ^ 54)) =
        (.ok (), BankAccount.init "123456" (.fin 0)) := by
  refine ⟨?_, ?_, ?_⟩
  · have h0 : (0 : Double) ≤ .fin 1 := by
      rw [Double.zero_le_fin]
      norm_num
    have hd : (BankAccount.init "123456" (.fin (2 ^ 53))).deposit (.fin 1) =
        (.ok (), BankAccount.init "123456" (.fin (2 ^ 53))) := by
      rw [deposit_active_nonneg _ _ rfl h0]
      simp only [BankAccount.init, Double.add_def, Double.add, round_two_pow_53_add_one]
    have hle : Double.fin 1 ≤ (BankAccount.init "123456" (.fin (2 ^ 53))).balance := by
      rw [Double.le_def]
      simp only [BankAccount.init, Double.le]
      norm_num
    rw [hd]
    show (BankAccount.init "123456" (.fin (2 ^ 53))).withdraw (.fin 1) = _
    rw [withdraw_active_le _ _ rfl hle]
    simp only [BankAccount.init, Double.sub_def, Double.sub, round_two_pow_53_sub_one]
  · intro h
    have h2 : Double.fin (2 ^ 53 - 1) = .fin (2 ^ 53) := congrArg BankAccount.balance h
    have h3 : (2 : ℚ) ^ 53 - 1 = 2 ^ 53 := Double.fin.inj h2
    norm_num at h3
  · have h0 : (0 : Double) ≤ .fin (2 ^ 54) := by
      rw [Double.zero_le_fin]
      norm_num
    have hsum : (-1 : ℚ) + 2 ^ 54 = 2 ^ 54 - 1 := by ring
    have hd : (BankAccount.init "123456" (.fin (-1))).deposit (.fin (2 ^ 54)) =
        (.ok (), BankAccount.init "123456" (.fin (2 ^ 54))) := by
      rw [deposit_active_nonneg _ _ rfl h0]
      simp only [BankAccount.init, Double.add_def, Double.add, hsum, round_two_pow_54_sub_one]
    have hle : Double.fin (2 ^ 54) ≤ (BankAccount.init "123456" (.fin (2 ^ 54))).balance := by
      rw [Double.le_def]
      simp [BankAccount.init, Double.le]
    rw [hd]
    show (BankAccount.init "123456" (.fin (2 ^ 54))).withdraw (.fin (2 ^ 54)) = _
    rw [withdraw_active_le _ _ rfl hle]
    simp only [BankAccount.init, Double.sub_def, Double.sub, sub_self, round_zero]

/-- C18 (amended): on an active account with finite balance `b` and for a
finite amount `a ≥ 0` such that the exact sum `b + a` is a binary64 value:
`deposit a` returns normally; if `b ≥ 0` (a binary64 value) the following
`withdraw a` returns normally too and the state is again exactly the original
one; if `b < 0` the following `withdraw a` throws `OverdrawException` instead
and the balance stays `b + a`. -/
theorem round_trip_when_exact (s : BankAccount) (b a : ℚ)
    (hact : s.isActive = true) (hb : s.balance = .fin b) (ha : 0 ≤ a)
    (hsum : Representable (b + a)) :
    (s.deposit (.fin a)).1 = .ok () ∧
      (0 ≤ b → Representable b → (s.deposit (.fin a)).2.withdraw (.fin a) = (.ok (), s)) ∧
      (b < 0 →
        (s.deposit (.fin a)).2.withdraw (.fin a) =
          (.error .OverdrawException,
            { accountNumber := s.accountNumber, balance := .fin (b + a),
              isActive := true })) := by
  obtain ⟨accNum, bal, act⟩ := s
  simp only at hact hb
  subst hact hb
  have h0 : (0 : Double) ≤ .fin a := (Double.zero_le_fin a).mpr ha
  have hd : (BankAccount.mk accNum (.fin b) true).deposit (.fin a) =
      (.ok (), { accountNumber := accNum, balance := .fin (b + a), isActive := true }) := by
    rw [deposit_active_nonneg _ _ rfl h0]
    simp only [Double.add_def, Double.add]
    rw [hsum]
  rw [hd]
  refine ⟨rfl, fun hb0 hrep => ?_, fun hb0 => ?_⟩
  · have hle : Double.fin a ≤
        (BankAccount.mk accNum (.fin (b + a)) true).balance := by
      rw [Double.le_def]
      simp only [Double.le, decide_eq_true_eq]
      linarith
    show (BankAccount.mk accNum (.fin (b + a)) true).withdraw (.fin a) = _
    rw [withdraw_active_le _ _ rfl hle]
    simp only [Double.sub_def, Double.sub, add_sub_cancel_right]
    rw [hrep]
  · have hgt : Double.fin a > (BankAccount.mk accNum (.fin (b + a)) true).balance := by
      show (Double.fin (b + a)) < .fin a
      rw [Double.fin_lt_fin]
      linarith
    show (BankAccount.mk accNum (.fin (b + a)) true).withdraw (.fin a) = _
    simp only [BankAccount.withdraw] at hgt ⊢
    simp [hgt]

theorem round_trip_when_exact_witness :
    ((BankAccount.init "123456" (.fin 1000)).deposit (.fin 250)).1 = .ok () ∧
      ((BankAccount.init "123456" (.fin 1000)).deposit (.fin 250)).2.withdraw (.fin 250) =
        (.ok (), BankAccount.init "123456" (.fin 1000)) ∧
      ((BankAccount.init "789101" (.fin (-10))).deposit (.fin 5)).2.withdraw (.fin 5) =
        (.error .OverdrawException,
          { accountNumber := "789101", balance := .fin (-10 + 5), isActive := true }) :=
  ⟨(round_trip_when_exact (BankAccount.init "123456" (.fin 1000)) 1000 250 rfl rfl
      (by norm_num)
      (by
        have h := representable_intCast 1250 (by norm_num)
        have h2 : ((1250 : ℤ) : ℚ) = 1000 + 250 := by norm_num
        rwa [h2] at h)).1,
    (round_trip_when_exact (BankAccount.init "123456" (.fin 1000)) 1000 250 rfl rfl
      (by norm_num)
      (by
        have h := representable_intCast 1250 (by norm_num)
        have h2 : ((1250 : ℤ) : ℚ) = 1000 + 250 := by norm_num
        rwa [h2] at h)).2.1 (by norm_num)
      (by
        have h := representable_intCast 1000 (by norm_num)
        have h2 : ((1000 : ℤ) : ℚ) = 1000 := by norm_num
        rwa [h2] at h),
    (round_trip_when_exact (BankAccount.init "789101" (.fin (-10))) (-10) 5 rfl rfl
      (by norm_num)
      (by
        have h := representable_intCast (-5) (by norm_num)
        have h2 : ((-5 : ℤ) : ℚ) = -10 + 5 := by norm_num
        rwa [h2] at h)).2.2 (by norm_num)⟩

end Binary64

/-! ## C19 -/

/-- C19: in the driver, `deposit 1000` and `withdraw 500` on the account
created with balance `1000` both return normally; `testEdgeCases` returns
normally whatever was written before, every exception raised in it being
caught by its own handlers; so the `try` block of `main` returns normally,
the handler of `main` writes nothing (no `"Error: "` on `std::cerr`), and
`main` returns status `0`. -/
theorem main_outer_handler_unreachable (out : Transcript) :
    ((BankAccount.init "123456" 1000).deposit 1000).1 = .ok () ∧
      (((BankAccount.init "123456" 1000).deposit 1000).2.withdraw 500).1 = .ok () ∧
      (testEdgeCases out).1 = .ok () ∧
      (mainTry (BankAccount.init "123456" 1000, [])).1 = .ok () ∧
      (OStream.cerr, Item.str "Error: ") ∉ main.2 ∧
      main.1 = .ok 0 := by
  refine ⟨?_, ?_, ?_, ?_, ?_, ?_⟩
  · simp [BankAccount.deposit, BankAccount.init]
    norm_num
  · simp [BankAccount.deposit, BankAccount.withdraw, BankAccount.init]
    norm_num
  · simp [testEdgeCases, testEdgeCasesBody_eval]
  · rw [mainTry_eval]
  · simp [main, tryCatch, mainTry_eval]
  · simp [main, tryCatch, mainTry_eval]

end BankAccountModel
